import Mathlib

/-!
Verification of the worker-pool and iteration-driver core of
`nupic/research/frameworks/vernon/run_experiment/trainables.py`.

The Python code drives distributed training through ray remote actors.  We
shallowly embed the driver logic: remote calls become oracle values (the
driver only ever observes whether a batch of remote calls succeeded, via
`ray.util.sgd.utils.check_for_failure`, and the returned values), Python
dicts become association lists with insertion-order-preserving update, and
side effects (sleeps, pool destruction, dispatches) become explicit event
traces.
-/

namespace Trainables

/-- Values stored in configuration dictionaries and result records. -/
inductive Value where
  | bool (b : Bool)
  | str (s : String)
  | nat (n : Nat)
  | num (q : ℚ)
  deriving DecidableEq, Repr

/-- A Python dict, modelled as an association list in insertion order. -/
abbrev Dict := List (String × Value)

/-- Model of Python `d[k] = v`: replace the value in place when the key is
present (insertion order preserved), else append the new binding. -/
def dictSet (d : Dict) (k : String) (v : Value) : Dict :=
  if (d.lookup k).isSome then
    d.map (fun p => if p.1 = k then (k, v) else p)
  else
    d ++ [(k, v)]

theorem lookup_replace_self (k : String) (v : Value) :
    ∀ d : Dict, (d.lookup k).isSome = true →
      List.lookup k (d.map (fun p => if p.1 = k then (k, v) else p)) = some v := by
  intro d
  induction d with
  | nil => intro h; simp [List.lookup] at h
  | cons p rest ih =>
    obtain ⟨a, b⟩ := p
    intro h
    by_cases hk : a = k
    · subst hk
      simp [List.lookup_cons]
    · have hne : (k == a) = false := beq_false_of_ne (Ne.symm hk)
      rw [List.lookup_cons, hne] at h
      simp only [List.map_cons, if_neg hk]
      rw [List.lookup_cons, hne]
      exact ih h

theorem lookup_replace_ne (k k' : String) (v : Value) (h : k' ≠ k) :
    ∀ d : Dict, List.lookup k' (d.map (fun p => if p.1 = k then (k, v) else p))
      = List.lookup k' d := by
  intro d
  induction d with
  | nil => simp
  | cons p rest ih =>
    obtain ⟨a, b⟩ := p
    by_cases hk : a = k
    · subst hk
      have hne : (k' == a) = false := beq_false_of_ne h
      simp [List.lookup_cons, hne, ih]
    · simp only [List.map_cons, if_neg hk]
      rw [List.lookup_cons, List.lookup_cons]
      cases hkk : (k' == a)
      · exact ih
      · rfl

theorem lookup_append_single_self (k : String) (v : Value) :
    ∀ d : Dict, (d.lookup k).isSome = false →
      List.lookup k (d ++ [(k, v)]) = some v := by
  intro d
  induction d with
  | nil => intro _; simp [List.lookup_cons]
  | cons p rest ih =>
    obtain ⟨a, b⟩ := p
    intro h
    rw [List.cons_append, List.lookup_cons]
    rw [List.lookup_cons] at h
    cases hkk : (k == a)
    · rw [hkk] at h
      exact ih h
    · rw [hkk] at h
      simp at h

theorem lookup_append_single_ne (k k' : String) (v : Value) (h : k' ≠ k) :
    ∀ d : Dict, List.lookup k' (d ++ [(k, v)]) = List.lookup k' d := by
  intro d
  induction d with
  | nil => simp [List.lookup_cons, beq_false_of_ne h]
  | cons p rest ih =>
    obtain ⟨a, b⟩ := p
    rw [List.cons_append, List.lookup_cons, List.lookup_cons]
    cases hkk : (k' == a)
    · exact ih
    · rfl

theorem lookup_dictSet_self (d : Dict) (k : String) (v : Value) :
    (dictSet d k v).lookup k = some v := by
  unfold dictSet
  split
  · exact lookup_replace_self k v d (by assumption)
  · rename_i h
    exact lookup_append_single_self k v d (by simp only [Bool.not_eq_true] at h; exact h)

theorem lookup_dictSet_ne (d : Dict) (k k' : String) (v : Value) (h : k' ≠ k) :
    (dictSet d k v).lookup k' = d.lookup k' := by
  unfold dictSet
  split
  · exact lookup_replace_ne k k' v h d
  · exact lookup_append_single_ne k k' v h d

/-! ## Worker-pool creation (`BaseTrainable._create_workers`)

The Python loop runs `for i in range(1 + self.max_retries)`.  Each attempt
instantiates `world_size` remote handles, derives the rendezvous URL from
the first handle, broadcasts per-worker configuration copies, and waits on
all `setup_experiment` calls.  A failed attempt kills all workers (emptying
`self.procs`), sleeps `2 ** i` seconds, and retries; falling off the loop
raises `RuntimeError(f"Failed to create workers after {max_retries}
retries")`.  We record kills and sleeps as events and model the batch
failure check as an oracle `setupFails : Nat → Bool` indexed by attempt. -/

/-- Observable side effects of pool creation. -/
inductive CEvent where
  | killWorkers
  | sleep (secs : Nat)
  deriving DecidableEq, Repr

/-- Python `config.get(k, default)` restricted to natural-number values. -/
def getNatD (d : Dict) (k : String) (default : Nat) : Nat :=
  match d.lookup k with
  | some (Value.nat n) => n
  | _ => default

/-- World size as computed at the top of `_create_workers`: `num_gpus` when
positive, else `num_cpus` (default 1). -/
def world_size_of (config : Dict) : Nat :=
  let num_gpus := getNatD config "num_gpus" 0
  let num_cpus := getNatD config "num_cpus" 1
  if num_gpus > 0 then num_gpus else num_cpus

/-- The per-worker configuration: a deep copy of `config` into which
`distributed`, `dist_url`, `world_size` and `rank` are assigned. -/
def worker_config (config : Dict) (dist_url : String) (world_size rank : Nat) :
    Dict :=
  dictSet (dictSet (dictSet (dictSet config
    "distributed" (Value.bool true))
    "dist_url" (Value.str dist_url))
    "world_size" (Value.nat world_size))
    "rank" (Value.nat rank)

/-- The rendezvous URL `f"tcp://{ip}:{port}"`, where the port from handle 0
is overridden by an explicit `dist_port` config entry when present. -/
def dist_url_of (config : Dict) (ip : String) (free_port : Nat) : String :=
  "tcp://" ++ ip ++ ":" ++ toString (getNatD config "dist_port" free_port)

/-- The pool built by one creation attempt: one configured handle per rank
in `range world_size` (the handle is identified with the worker
configuration broadcast to it by `setup_experiment`). -/
def attempt_pool (config : Dict) (dist_url : String) (world_size : Nat) :
    List Dict :=
  (List.range world_size).map (fun rank =>
    worker_config config dist_url world_size rank)

/-- Result of `_create_workers`: the final `self.procs`, the trace of kills
and sleeps, and the message of the raised `RuntimeError`, if any. -/
structure CreateOutcome where
  procs : List Dict
  events : List CEvent
  err : Option String
  deriving DecidableEq, Repr

/-- The exhaustion message
`f"Failed to create workers after {max_retries} retries"`. -/
def create_err_msg (max_retries : Nat) : String :=
  "Failed to create workers after " ++ toString max_retries ++ " retries"

/-- The `for ... else` loop of `_create_workers`: `i` is the current attempt
index, `fuel` the number of attempts remaining.  A failing attempt kills the
pool and sleeps `2 ^ i`; exhausting the fuel reaches the `else` branch with
`self.procs = []` (the last failing attempt killed them) and raises. -/
def create_go (pool : List Dict) (max_retries : Nat) (setupFails : Nat → Bool) :
    Nat → Nat → CreateOutcome
  | _, 0 => { procs := [], events := [], err := some (create_err_msg max_retries) }
  | i, fuel + 1 =>
    if setupFails i then
      let rest := create_go pool max_retries setupFails (i + 1) fuel
      { rest with events := CEvent.killWorkers :: CEvent.sleep (2 ^ i) :: rest.events }
    else
      { procs := pool, events := [], err := none }

/-- `BaseTrainable._create_workers`.  `trial_name` mirrors
`self._trial_info.trial_name` (used only in log lines, never in the raised
error); `ip` and `free_port` are the values returned by the coordinator
handle; `setupFails i` tells whether `check_for_failure` fails on the
`setup_experiment` batch of attempt `i`. -/
def create_workers (config : Dict) (max_retries : Nat) (_trial_name : String)
    (ip : String) (free_port : Nat) (setupFails : Nat → Bool) : CreateOutcome :=
  let world_size := world_size_of config
  let dist_url := dist_url_of config ip free_port
  create_go (attempt_pool config dist_url world_size) max_retries setupFails
    0 (1 + max_retries)

/-- The event trace produced by `k` consecutive failing attempts starting at
attempt index `i`: each failure kills the pool, then sleeps `2 ^ index`. -/
def backoff_trace (i : Nat) : Nat → List CEvent
  | 0 => []
  | k + 1 => CEvent.killWorkers :: CEvent.sleep (2 ^ i) :: backoff_trace (i + 1) k

theorem backoff_trace_eq (k : Nat) : ∀ i, backoff_trace i k =
    (List.range k).flatMap
      (fun j => [CEvent.killWorkers, CEvent.sleep (2 ^ (i + j))]) := by
  induction k with
  | zero => intro i; rfl
  | succ k ih =>
    intro i
    rw [backoff_trace, ih (i + 1), List.range_succ_eq_map]
    simp only [List.flatMap_cons, List.flatMap_map, Nat.add_zero,
      List.cons_append, List.nil_append]
    congr 1
    congr 1
    exact List.flatMap_congr (fun j _ => by
      rw [show i + 1 + j = i + (j + 1) from by omega])

theorem create_go_success_spec (pool : List Dict) (mr : Nat)
    (fails : Nat → Bool) :
    ∀ fuel i k, k < fuel → (∀ j, j < k → fails (i + j) = true) →
      fails (i + k) = false →
      create_go pool mr fails i fuel =
        { procs := pool, events := backoff_trace i k, err := none } := by
  intro fuel
  induction fuel with
  | zero => intro i k hk _ _; exact absurd hk (Nat.not_lt_zero k)
  | succ fuel ih =>
    intro i k hk hfail hsucc
    cases k with
    | zero =>
      have h0 : fails i = false := by simpa using hsucc
      simp [create_go, h0, backoff_trace]
    | succ k =>
      have h0 : fails i = true := by simpa using hfail 0 (Nat.succ_pos k)
      have ihk := ih (i + 1) k (Nat.lt_of_succ_lt_succ hk)
        (fun j hj => by
          rw [show i + 1 + j = i + (j + 1) from by omega]
          exact hfail (j + 1) (by omega))
        (by rw [show i + 1 + k = i + (k + 1) from by omega]; exact hsucc)
      simp [create_go, h0, ihk, backoff_trace]

theorem create_go_exhaust_spec (pool : List Dict) (mr : Nat)
    (fails : Nat → Bool) :
    ∀ fuel i, (∀ j, j < fuel → fails (i + j) = true) →
      create_go pool mr fails i fuel =
        { procs := [], events := backoff_trace i fuel,
          err := some (create_err_msg mr) } := by
  intro fuel
  induction fuel with
  | zero => intro i _; rfl
  | succ fuel ih =>
    intro i hfail
    have h0 : fails i = true := by simpa using hfail 0 (Nat.succ_pos fuel)
    have ihk := ih (i + 1) (fun j hj => by
      rw [show i + 1 + j = i + (j + 1) from by omega]
      exact hfail (j + 1) (by omega))
    simp [create_go, h0, ihk, backoff_trace]

theorem backoff_trace_zero (k : Nat) : backoff_trace 0 k =
    (List.range k).flatMap
      (fun j => [CEvent.killWorkers, CEvent.sleep (2 ^ j)]) := by
  rw [backoff_trace_eq]
  exact List.flatMap_congr (fun j _ => by rw [Nat.zero_add])

theorem create_workers_eq_go (config : Dict) (r : Nat) (name ip : String)
    (port : Nat) (fails : Nat → Bool) :
    create_workers config r name ip port fails =
      create_go (attempt_pool config (dist_url_of config ip port)
        (world_size_of config)) r fails 0 (1 + r) := rfl

/-- C1: with `max_retries = r`, if the first `k ≤ r` pool-creation attempts
fail and attempt `k + 1` succeeds, then `_create_workers` performs exactly
`k` backoff sleeps of durations `2^0, ..., 2^(k-1)` seconds, kills the whole
pool immediately before each sleep, raises nothing, and ends with a pool of
`world_size` workers. -/
theorem create_workers_retry_backoff (config : Dict) (r k : Nat)
    (name ip : String) (port : Nat) (fails : Nat → Bool)
    (hk : k ≤ r) (hfail : ∀ j, j < k → fails j = true)
    (hsucc : fails k = false) :
    (create_workers config r name ip port fails).err = none ∧
    (create_workers config r name ip port fails).procs.length
      = world_size_of config ∧
    (create_workers config r name ip port fails).events =
      (List.range k).flatMap
        (fun j => [CEvent.killWorkers, CEvent.sleep (2 ^ j)]) := by
  have h := create_go_success_spec
    (attempt_pool config (dist_url_of config ip port) (world_size_of config))
    r fails (1 + r) 0 k (by omega)
    (fun j hj => by rw [Nat.zero_add]; exact hfail j hj)
    (by rw [Nat.zero_add]; exact hsucc)
  rw [create_workers_eq_go, h]
  refine ⟨rfl, ?_, backoff_trace_zero k⟩
  simp [attempt_pool]

/-- C1 witness: a concrete run with `max_retries = 2` whose first attempt
fails and whose second attempt succeeds. -/
theorem create_workers_retry_backoff_witness :
    (1 ≤ 2) ∧
    ((create_workers [("num_cpus", Value.nat 2)] 2 "trial_w" "10.0.0.1" 29500
        (fun i => decide (i = 0))).err = none ∧
      (create_workers [("num_cpus", Value.nat 2)] 2 "trial_w" "10.0.0.1" 29500
        (fun i => decide (i = 0))).procs.length
        = world_size_of [("num_cpus", Value.nat 2)] ∧
      (create_workers [("num_cpus", Value.nat 2)] 2 "trial_w" "10.0.0.1" 29500
        (fun i => decide (i = 0))).events =
        (List.range 1).flatMap
          (fun j => [CEvent.killWorkers, CEvent.sleep (2 ^ j)])) :=
  ⟨by omega,
   create_workers_retry_backoff [("num_cpus", Value.nat 2)] 2 1 "trial_w"
     "10.0.0.1" 29500 (fun i => decide (i = 0)) (by omega)
     (fun j hj => by
       have hj0 : j = 0 := by omega
       subst hj0
       rfl)
     (by decide)⟩

/-- C2 counterexample: when all attempts fail, the raised message is the
fixed string built only from `max_retries`; for the concrete trial named
`trial_X` the trial name does not occur in the message, so the error does
not identify the trial. -/
theorem create_workers_exhaust_message_no_trial :
    (create_workers [] 3 "trial_X" "127.0.0.1" 29500 (fun _ => true)).err
        = some (create_err_msg 3) ∧
    ¬ ("trial_X".data <:+: (create_err_msg 3).data) := by
  constructor
  · rfl
  · decide

/-- C2 amended: if all `max_retries + 1` pool-creation attempts fail, worker
creation raises an error whose message states the exhausted retry count (but
does not name the trial), and afterwards no live worker handles remain: the
handle list is empty. -/
theorem create_workers_exhaust_raises (config : Dict) (r : Nat)
    (name ip : String) (port : Nat) (fails : Nat → Bool)
    (hall : ∀ j, j ≤ r → fails j = true) :
    (create_workers config r name ip port fails).err
      = some (create_err_msg r) ∧
    (create_workers config r name ip port fails).procs = [] := by
  have h := create_go_exhaust_spec
    (attempt_pool config (dist_url_of config ip port) (world_size_of config))
    r fails (1 + r) 0
    (fun j hj => by rw [Nat.zero_add]; exact hall j (by omega))
  rw [create_workers_eq_go, h]
  exact ⟨rfl, rfl⟩

/-- C2 witness: a concrete exhausted run with `max_retries = 1`. -/
theorem create_workers_exhaust_raises_witness :
    ((fun _ : Nat => true) 0 = true) ∧
    ((create_workers [] 1 "trial_w" "127.0.0.1" 29500 (fun _ => true)).err
        = some (create_err_msg 1) ∧
      (create_workers [] 1 "trial_w" "127.0.0.1" 29500 (fun _ => true)).procs
        = []) :=
  ⟨rfl, create_workers_exhaust_raises [] 1 "trial_w" "127.0.0.1" 29500
    (fun _ => true) (fun _ _ => rfl)⟩

/-- C5: a successful pool creation (first `k` attempts fail, attempt `k + 1`
succeeds) produces exactly `world_size` worker handles, where `world_size`
is `num_gpus` when positive and otherwise `num_cpus` (default 1), and the
handle at each pool index carries `distributed = true`, the shared
rendezvous URL, the shared `world_size`, and its 0-based `rank` equal to its
pool index. -/
theorem create_workers_pool_configured (config : Dict) (r k : Nat)
    (name ip : String) (port : Nat) (fails : Nat → Bool)
    (hk : k ≤ r) (hfail : ∀ j, j < k → fails j = true)
    (hsucc : fails k = false) :
    (create_workers config r name ip port fails).err = none ∧
    (create_workers config r name ip port fails).procs.length =
      (if 0 < getNatD config "num_gpus" 0 then getNatD config "num_gpus" 0
       else getNatD config "num_cpus" 1) ∧
    ∀ idx (h : idx < (create_workers config r name ip port fails).procs.length),
      ((create_workers config r name ip port fails).procs.get ⟨idx, h⟩).lookup
          "distributed" = some (Value.bool true) ∧
      ((create_workers config r name ip port fails).procs.get ⟨idx, h⟩).lookup
          "dist_url" = some (Value.str (dist_url_of config ip port)) ∧
      ((create_workers config r name ip port fails).procs.get ⟨idx, h⟩).lookup
          "world_size" = some (Value.nat (world_size_of config)) ∧
      ((create_workers config r name ip port fails).procs.get ⟨idx, h⟩).lookup
          "rank" = some (Value.nat idx) := by
  have h := create_go_success_spec
    (attempt_pool config (dist_url_of config ip port) (world_size_of config))
    r fails (1 + r) 0 k (by omega)
    (fun j hj => by rw [Nat.zero_add]; exact hfail j hj)
    (by rw [Nat.zero_add]; exact hsucc)
  rw [create_workers_eq_go, h]
  refine ⟨rfl, by simp [attempt_pool, world_size_of], ?_⟩
  intro idx hidx
  have hlen : idx < world_size_of config := by
    simpa [attempt_pool] using hidx
  have hget : (attempt_pool config (dist_url_of config ip port)
      (world_size_of config)).get ⟨idx, hidx⟩ =
      worker_config config (dist_url_of config ip port)
        (world_size_of config) idx := by
    simp [attempt_pool]
  rw [hget]
  unfold worker_config
  refine ⟨?_, ?_, ?_, ?_⟩
  · rw [lookup_dictSet_ne _ _ _ _ (by decide),
      lookup_dictSet_ne _ _ _ _ (by decide),
      lookup_dictSet_ne _ _ _ _ (by decide),
      lookup_dictSet_self]
  · rw [lookup_dictSet_ne _ _ _ _ (by decide),
      lookup_dictSet_ne _ _ _ _ (by decide),
      lookup_dictSet_self]
  · rw [lookup_dictSet_ne _ _ _ _ (by decide), lookup_dictSet_self]
  · rw [lookup_dictSet_self]

/-- C5 witness: a concrete GPU configuration with two workers, succeeding on
the first attempt. -/
theorem create_workers_pool_configured_witness :
    (0 ≤ 3) ∧
    ((create_workers [("num_gpus", Value.nat 2)] 3 "trial_w" "10.0.0.2" 29500
        (fun _ => false)).err = none ∧
      (create_workers [("num_gpus", Value.nat 2)] 3 "trial_w" "10.0.0.2" 29500
        (fun _ => false)).procs.length =
        (if 0 < getNatD [("num_gpus", Value.nat 2)] "num_gpus" 0
         then getNatD [("num_gpus", Value.nat 2)] "num_gpus" 0
         else getNatD [("num_gpus", Value.nat 2)] "num_cpus" 1) ∧
      ∀ idx (h : idx < (create_workers [("num_gpus", Value.nat 2)] 3 "trial_w"
          "10.0.0.2" 29500 (fun _ => false)).procs.length),
        ((create_workers [("num_gpus", Value.nat 2)] 3 "trial_w" "10.0.0.2"
            29500 (fun _ => false)).procs.get ⟨idx, h⟩).lookup
            "distributed" = some (Value.bool true) ∧
        ((create_workers [("num_gpus", Value.nat 2)] 3 "trial_w" "10.0.0.2"
            29500 (fun _ => false)).procs.get ⟨idx, h⟩).lookup
            "dist_url" = some (Value.str
              (dist_url_of [("num_gpus", Value.nat 2)] "10.0.0.2" 29500)) ∧
        ((create_workers [("num_gpus", Value.nat 2)] 3 "trial_w" "10.0.0.2"
            29500 (fun _ => false)).procs.get ⟨idx, h⟩).lookup
            "world_size" = some (Value.nat
              (world_size_of [("num_gpus", Value.nat 2)])) ∧
        ((create_workers [("num_gpus", Value.nat 2)] 3 "trial_w" "10.0.0.2"
            29500 (fun _ => false)).procs.get ⟨idx, h⟩).lookup
            "rank" = some (Value.nat idx)) :=
  ⟨by omega,
   create_workers_pool_configured [("num_gpus", Value.nat 2)] 3 0 "trial_w"
     "10.0.0.2" 29500 (fun _ => false) (by omega)
     (fun j hj => absurd hj (by omega)) rfl⟩

/-! ## Iteration driver (`BaseTrainable._train`, supervised work unit)

One `step()` call.  The driver only observes remote batches through
`ray.util.sgd.utils.check_for_failure` (which returns `False` when an actor
died, catching `RayActorError`, and `True` when the whole batch succeeded)
and through the values fetched by `ray.get`.  We package those observations
in an `Oracle`: at most one `pre_experiment` batch, one work-unit batch
(`run_epoch`, per `SupervisedTrainable._run_iteration`) and one
`should_stop` poll of the coordinator occur per call.  Dispatches, polls and
pool destruction are recorded as events. -/

/-- Observable side effects of one `_train` call.  The dispatch events carry
the number of workers the batch was fanned out to; `stopPoll` is the
`should_stop` call on the coordinator `self.procs[0]`. -/
inductive TEvent where
  | preExpDispatch (n : Nat)
  | workDispatch (n : Nat)
  | stopPoll
  | kill
  deriving DecidableEq, Repr

/-- Driver-side state read and written by `_train`: the first-run flag
(consumed exactly once), the restored flag, `self._iteration`, and the
worker handle list `self.procs`. -/
structure TrainState where
  first_run : Bool
  restored : Bool
  iteration : Nat
  procs : List Dict
  deriving DecidableEq, Repr

/-- Outcomes of the remote calls a single `_train` call can make:
`preExpOk`/`runOk` are the `check_for_failure` verdicts on the
`pre_experiment` and work-unit batches, the result lists are what `ray.get`
would return on success, and `stopPollOk`/`stopVal` describe the
`should_stop` poll of the coordinator. -/
structure Oracle where
  preExpOk : Bool
  preExpResults : List Value
  runOk : Bool
  runResults : List Value
  stopPollOk : Bool
  stopVal : Bool

/-- Key `ray.tune.result.DONE`. -/
def DONE : String := "done"

/-- Key `ray.tune.result.RESULT_DUPLICATE`. -/
def RESULT_DUPLICATE : String := "__duplicate__"

/-- `BaseTrainable._should_stop`: poll `should_stop` on the coordinator; a
transport failure of the poll itself counts as stop. -/
def stop_flag (o : Oracle) : Bool :=
  if o.stopPollOk then o.stopVal else true

/-- Result of one `_train` call: the driver state afterwards, the event
trace, the returned record (`none` when an exception propagates) and the
message of the propagated exception, if any. -/
structure TrainOutcome where
  state : TrainState
  events : List TEvent
  ret : Option Dict
  err : Option String
  deriving DecidableEq, Repr

/-- The message of the `RuntimeError` raised when a worker fails during
training: `f"{trial_name}({iteration}): One of the remote workers failed
during training"`. -/
def train_err_msg (name : String) (iteration : Nat) : String :=
  name ++ "(" ++ toString iteration ++
    "): One of the remote workers failed during training"

/-- The tail of `_train` from `results = self._run_iteration()` on: dispatch
the work unit to every worker; on batch success aggregate, run
`_process_result` (with the saved pre-experiment aggregate), attach the stop
flag under `DONE` and return; on batch failure raise, which the enclosing
`except` turns into `_kill_workers()` before re-raising. -/
def run_phase (agg : List Value → Dict)
    (proc_res : Dict → Option Value → Dict) (name : String)
    (st : TrainState) (o : Oracle) (evs : List TEvent) (pre : Option Value) :
    TrainOutcome :=
  let evs := evs ++ [TEvent.workDispatch st.procs.length]
  if o.runOk then
    let ret := proc_res (agg o.runResults) pre
    { state := st, events := evs ++ [TEvent.stopPoll],
      ret := some (dictSet ret DONE (Value.bool (stop_flag o))), err := none }
  else
    { state := { st with procs := [] }, events := evs ++ [TEvent.kill],
      ret := none, err := some (train_err_msg name st.iteration) }

/-- The first-run pre-experiment block of `_train`: when
`self._iteration == 0`, dispatch `pre_experiment` to every worker and keep
the aggregated results only when the whole batch succeeded
(`check_for_failure`); a failed batch is silently dropped. -/
def pre_phase (agg : List Value → Dict) (aggPre : List Value → Value)
    (proc_res : Dict → Option Value → Dict) (name : String)
    (st : TrainState) (o : Oracle) (evs : List TEvent) : TrainOutcome :=
  if st.iteration = 0 then
    let evs := evs ++ [TEvent.preExpDispatch st.procs.length]
    let pre := if o.preExpOk then some (aggPre o.preExpResults) else none
    run_phase agg proc_res name st o evs pre
  else
    run_phase agg proc_res name st o evs none

/-- `BaseTrainable._train` with the supervised work unit.  On the very first
call the first-run flag is consumed; a restored driver whose coordinator
already reports stop returns `{RESULT_DUPLICATE: True, DONE: True}` without
dispatching anything. -/
def train (agg : List Value → Dict) (aggPre : List Value → Value)
    (proc_res : Dict → Option Value → Dict) (name : String)
    (st : TrainState) (o : Oracle) : TrainOutcome :=
  if st.first_run then
    let st1 := { st with first_run := false }
    if st.restored then
      if stop_flag o then
        { state := st1, events := [TEvent.stopPoll],
          ret := some [(RESULT_DUPLICATE, Value.bool true),
                       (DONE, Value.bool true)],
          err := none }
      else
        pre_phase agg aggPre proc_res name st1 o [TEvent.stopPoll]
    else
      pre_phase agg aggPre proc_res name st1 o []
  else
    run_phase agg proc_res name st o [] none

/-- C3: if the work-unit batch fails at the transport level (the
`check_for_failure` verdict on the `_run_iteration` dispatch is false) on a
pool of at least one worker, and the call is not the restored-duplicate
early return, then `_train` raises the trial-naming `RuntimeError` and the
`except` handler destroys the pool before propagating: the handle list is
empty afterwards. -/
theorem train_work_failure_kills_pool (agg : List Value → Dict)
    (aggPre : List Value → Value) (proc_res : Dict → Option Value → Dict)
    (name : String) (st : TrainState) (o : Oracle)
    (hn : 1 ≤ st.procs.length)
    (hguard : (st.first_run && (st.restored && stop_flag o)) = false)
    (hfail : o.runOk = false) :
    (train agg aggPre proc_res name st o).ret = none ∧
    (train agg aggPre proc_res name st o).err
      = some (train_err_msg name st.iteration) ∧
    (train agg aggPre proc_res name st o).state.procs = [] := by
  obtain ⟨fr, rs, it, ps⟩ := st
  simp only [Bool.and_eq_false_iff] at hguard
  cases fr with
  | false => simp [train, run_phase, hfail]
  | true =>
    cases rs with
    | false =>
      by_cases hit : it = 0 <;>
        simp [train, pre_phase, run_phase, hfail, hit]
    | true =>
      have hs : stop_flag o = false := by
        rcases hguard with h | h
        · exact absurd h (by simp)
        · rcases h with h | h
          · exact absurd h (by simp)
          · exact h
      by_cases hit : it = 0 <;>
        simp [train, pre_phase, run_phase, hfail, hit, hs]

/-- C3 witness: a single-worker pool in steady state whose work-unit batch
fails. -/
theorem train_work_failure_kills_pool_witness :
    (1 ≤ (TrainState.mk false false 5 [[]]).procs.length) ∧
    ((train (fun _ => []) (fun _ => Value.nat 0) (fun r _ => r) "trial_w"
        (TrainState.mk false false 5 [[]])
        (Oracle.mk true [] false [] true false)).ret = none ∧
      (train (fun _ => []) (fun _ => Value.nat 0) (fun r _ => r) "trial_w"
        (TrainState.mk false false 5 [[]])
        (Oracle.mk true [] false [] true false)).err
        = some (train_err_msg "trial_w" 5) ∧
      (train (fun _ => []) (fun _ => Value.nat 0) (fun r _ => r) "trial_w"
        (TrainState.mk false false 5 [[]])
        (Oracle.mk true [] false [] true false)).state.procs = []) :=
  ⟨by decide,
   train_work_failure_kills_pool (fun _ => []) (fun _ => Value.nat 0)
     (fun r _ => r) "trial_w" (TrainState.mk false false 5 [[]])
     (Oracle.mk true [] false [] true false) (by decide) rfl rfl⟩

/-- C4: on the very first `step()` of a restored driver whose coordinator
poll reports that the stop condition already holds, `_train` returns the
record `{RESULT_DUPLICATE: True, DONE: True}`, raises nothing, and its only
remote interaction is the single stop poll: no pre-experiment and no
work-unit dispatch occurs. -/
theorem train_restored_stop_duplicate (agg : List Value → Dict)
    (aggPre : List Value → Value) (proc_res : Dict → Option Value → Dict)
    (name : String) (st : TrainState) (o : Oracle)
    (hf : st.first_run = true) (hr : st.restored = true)
    (hok : o.stopPollOk = true) (hs : o.stopVal = true) :
    (train agg aggPre proc_res name st o).ret
      = some [(RESULT_DUPLICATE, Value.bool true), (DONE, Value.bool true)] ∧
    (train agg aggPre proc_res name st o).err = none ∧
    (train agg aggPre proc_res name st o).events = [TEvent.stopPoll] := by
  obtain ⟨fr, rs, it, ps⟩ := st
  simp only at hf hr
  subst hf; subst hr
  simp [train, stop_flag, hok, hs]

/-- C4 witness: a concrete restored driver stopping on its first step. -/
theorem train_restored_stop_duplicate_witness :
    ((TrainState.mk true true 7 [[], []]).first_run = true) ∧
    ((train (fun _ => []) (fun _ => Value.nat 0) (fun r _ => r) "trial_w"
        (TrainState.mk true true 7 [[], []])
        (Oracle.mk true [] true [] true true)).ret
        = some [(RESULT_DUPLICATE, Value.bool true),
                (DONE, Value.bool true)] ∧
      (train (fun _ => []) (fun _ => Value.nat 0) (fun r _ => r) "trial_w"
        (TrainState.mk true true 7 [[], []])
        (Oracle.mk true [] true [] true true)).err = none ∧
      (train (fun _ => []) (fun _ => Value.nat 0) (fun r _ => r) "trial_w"
        (TrainState.mk true true 7 [[], []])
        (Oracle.mk true [] true [] true true)).events = [TEvent.stopPoll]) :=
  ⟨rfl,
   train_restored_stop_duplicate (fun _ => []) (fun _ => Value.nat 0)
     (fun r _ => r) "trial_w" (TrainState.mk true true 7 [[], []])
     (Oracle.mk true [] true [] true true) rfl rfl rfl rfl⟩

/-- C6: every successful non-duplicate `_train` call returns a record whose
`DONE` entry is exactly the coordinator stop poll outcome, where
`_should_stop` maps a transport failure of the poll itself to `true`
(fail-safe toward stopping). -/
theorem train_done_flag_from_poll (agg : List Value → Dict)
    (aggPre : List Value → Value) (proc_res : Dict → Option Value → Dict)
    (name : String) (st : TrainState) (o : Oracle)
    (hguard : (st.first_run && (st.restored && stop_flag o)) = false)
    (hok : o.runOk = true) :
    ((train agg aggPre proc_res name st o).ret.map
        (fun r => r.lookup DONE)) = some (some (Value.bool (stop_flag o))) ∧
    (o.stopPollOk = false → stop_flag o = true) := by
  refine ⟨?_, fun h => by simp [stop_flag, h]⟩
  obtain ⟨fr, rs, it, ps⟩ := st
  simp only [Bool.and_eq_false_iff] at hguard
  cases fr with
  | false => simp [train, run_phase, hok, lookup_dictSet_self]
  | true =>
    cases rs with
    | false =>
      by_cases hit : it = 0 <;>
        simp [train, pre_phase, run_phase, hok, hit, lookup_dictSet_self]
    | true =>
      have hs : stop_flag o = false := by
        rcases hguard with h | h
        · exact absurd h (by simp)
        · rcases h with h | h
          · exact absurd h (by simp)
          · exact h
      by_cases hit : it = 0 <;>
        simp [train, pre_phase, run_phase, hok, hit, hs, lookup_dictSet_self]

/-- C6 witness: a steady-state step whose stop poll itself fails at the
transport level, so the returned `DONE` flag is `true`. -/
theorem train_done_flag_from_poll_witness :
    (((TrainState.mk false false 3 [[]]).first_run &&
        ((TrainState.mk false false 3 [[]]).restored &&
          stop_flag (Oracle.mk true [] true [] false false))) = false) ∧
    (((train (fun _ => []) (fun _ => Value.nat 0) (fun r _ => r) "trial_w"
        (TrainState.mk false false 3 [[]])
        (Oracle.mk true [] true [] false false)).ret.map
          (fun r => r.lookup DONE))
        = some (some (Value.bool
            (stop_flag (Oracle.mk true [] true [] false false)))) ∧
      ((Oracle.mk true [] true [] false false).stopPollOk = false →
        stop_flag (Oracle.mk true [] true [] false false) = true)) :=
  ⟨rfl,
   train_done_flag_from_poll (fun _ => []) (fun _ => Value.nat 0)
     (fun r _ => r) "trial_w" (TrainState.mk false false 3 [[]])
     (Oracle.mk true [] true [] false false) rfl rfl⟩

/-- C10: on the very first `step()` with iteration counter 0, when the
pre-experiment batch fails at the transport level, `_train` neither raises
nor kills the pool at that point: the pre-experiment aggregate is dropped
(`_process_result` receives `None` for it) and the work-unit dispatch
proceeds as usual. -/
theorem train_pre_experiment_failure_nonfatal (agg : List Value → Dict)
    (aggPre : List Value → Value) (proc_res : Dict → Option Value → Dict)
    (name : String) (st : TrainState) (o : Oracle)
    (hf : st.first_run = true) (hit : st.iteration = 0)
    (hguard : (st.restored && stop_flag o) = false)
    (hpre : o.preExpOk = false) (hrun : o.runOk = true) :
    (train agg aggPre proc_res name st o).err = none ∧
    (train agg aggPre proc_res name st o).ret
      = some (dictSet (proc_res (agg o.runResults) none) DONE
          (Value.bool (stop_flag o))) ∧
    TEvent.kill ∉ (train agg aggPre proc_res name st o).events ∧
    TEvent.workDispatch st.procs.length
      ∈ (train agg aggPre proc_res name st o).events ∧
    TEvent.preExpDispatch st.procs.length
      ∈ (train agg aggPre proc_res name st o).events := by
  obtain ⟨fr, rs, it, ps⟩ := st
  simp only [Bool.and_eq_false_iff] at hguard
  simp only at hf hit
  subst hf; subst hit
  cases rs with
  | false => simp [train, pre_phase, run_phase, hpre, hrun]
  | true =>
    have hs : stop_flag o = false := by
      rcases hguard with h | h
      · exact absurd h (by simp)
      · exact h
    simp [train, pre_phase, run_phase, hpre, hrun, hs]

/-- C10 witness: a fresh single-worker run whose pre-experiment batch fails
but whose first work unit succeeds. -/
theorem train_pre_experiment_failure_nonfatal_witness :
    ((TrainState.mk true false 0 [[]]).first_run = true) ∧
    ((train (fun _ => []) (fun _ => Value.nat 0) (fun r _ => r) "trial_w"
        (TrainState.mk true false 0 [[]])
        (Oracle.mk false [] true [] true false)).err = none ∧
      (train (fun _ => []) (fun _ => Value.nat 0) (fun r _ => r) "trial_w"
        (TrainState.mk true false 0 [[]])
        (Oracle.mk false [] true [] true false)).ret
        = some (dictSet ((fun (r : Dict) (_ : Option Value) => r)
            ((fun _ => ([] : Dict)) ([] : List Value)) none) DONE
            (Value.bool (stop_flag (Oracle.mk false [] true [] true false)))) ∧
      TEvent.kill ∉ (train (fun _ => []) (fun _ => Value.nat 0) (fun r _ => r)
        "trial_w" (TrainState.mk true false 0 [[]])
        (Oracle.mk false [] true [] true false)).events ∧
      TEvent.workDispatch (TrainState.mk true false 0 [[]]).procs.length
        ∈ (train (fun _ => []) (fun _ => Value.nat 0) (fun r _ => r) "trial_w"
            (TrainState.mk true false 0 [[]])
            (Oracle.mk false [] true [] true false)).events ∧
      TEvent.preExpDispatch (TrainState.mk true false 0 [[]]).procs.length
        ∈ (train (fun _ => []) (fun _ => Value.nat 0) (fun r _ => r) "trial_w"
            (TrainState.mk true false 0 [[]])
            (Oracle.mk false [] true [] true false)).events) :=
  ⟨rfl,
   train_pre_experiment_failure_nonfatal (fun _ => []) (fun _ => Value.nat 0)
     (fun r _ => r) "trial_w" (TrainState.mk true false 0 [[]])
     (Oracle.mk false [] true [] true false) rfl rfl rfl rfl rfl⟩

/-! ## Checkpoint round-trip (`BaseTrainable._save` / `BaseTrainable._restore`) -/

/-- Modelled from the spec: the experiment class hosted in each worker (its
`get_state`, `set_state` and `get_current_epoch` methods are collaborators
outside this repository).  A worker holds an opaque state blob; `get_state`
returns it, `set_state` replaces it, and `get_current_epoch` reads the
epoch recorded in the blob through `epoch_of`. -/
structure WorkerProc (σ : Type) where
  state : σ
  deriving DecidableEq, Repr

/-- Driver state touched by `_save` and `_restore`: the iteration counter
`self._iteration` and the worker pool `self.procs`. -/
structure SRDriver (σ : Type) where
  iteration : Nat
  procs : List (WorkerProc σ)
  deriving DecidableEq, Repr

/-- `BaseTrainable._save`: read the state of the first worker only
(`self.procs[0].get_state`); `none` models the `IndexError` on an empty
pool. -/
def save {σ : Type} (d : SRDriver σ) : Option σ :=
  d.procs.head?.map (fun w => w.state)

/-- `BaseTrainable._restore`: broadcast the blob to every worker via
`set_state`, then overwrite the iteration counter with the epoch the
coordinator reports after the broadcast (`get_current_epoch` on
`self.procs[0]`). -/
def restore {σ : Type} (epoch_of : σ → Nat) (d : SRDriver σ) (state : σ) :
    Option (SRDriver σ) :=
  let procs := d.procs.map (fun _ => WorkerProc.mk state)
  match procs.head? with
  | none => none
  | some w => some { iteration := epoch_of w.state, procs := procs }

/-- C7: for a nonempty synchronized pool (every worker holds the
coordinator state, the invariant `_save` itself relies on) whose iteration
counter agrees with the coordinator-reported epoch, `restore (checkpoint())`
with no intervening step leaves the driver unchanged: same iteration
counter, every worker state identical to before. -/
theorem restore_save_roundtrip {σ : Type} (epoch_of : σ → Nat)
    (d : SRDriver σ) (w : WorkerProc σ) (rest : List (WorkerProc σ))
    (hp : d.procs = w :: rest)
    (hsync : ∀ v ∈ d.procs, v.state = w.state)
    (hiter : d.iteration = epoch_of w.state) :
    save d = some w.state ∧
    restore epoch_of d w.state = some d := by
  obtain ⟨it, ps⟩ := d
  simp only at hp hiter
  subst hp; subst hiter
  have hmap : ∀ l : List (WorkerProc σ), (∀ v ∈ l, v.state = w.state) →
      l.map (fun _ => WorkerProc.mk w.state) = l := by
    intro l
    induction l with
    | nil => intro _; rfl
    | cons x xs ih =>
      intro h
      have hx : x.state = w.state := h x (List.mem_cons_self x xs)
      have hhd : (WorkerProc.mk w.state : WorkerProc σ) = x := by rw [← hx]
      simp only [List.map_cons]
      rw [hhd]
      have htl : List.map (fun _ : WorkerProc σ => x) xs = xs := by
        have hxs : ∀ v ∈ xs, v.state = w.state :=
          fun v hv => h v (List.mem_cons_of_mem x hv)
        calc List.map (fun _ : WorkerProc σ => x) xs
            = List.map (fun _ : WorkerProc σ => WorkerProc.mk w.state) xs := by
              rw [hhd]
          _ = xs := ih hxs
      rw [htl]
  constructor
  · rfl
  · simp only [restore, List.map_cons, List.head?]
    rw [show (WorkerProc.mk w.state : WorkerProc σ) = w from rfl]
    have hrest : rest.map (fun _ => WorkerProc.mk w.state) = rest :=
      hmap rest (fun v hv => hsync v (List.mem_cons_of_mem w hv))
    rw [hrest]

/-- C7 witness: a two-worker synchronized pool with blob type `Nat × Nat`
(epoch paired with a payload) and matching iteration counter. -/
theorem restore_save_roundtrip_witness :
    ((SRDriver.mk 4 [WorkerProc.mk ((4, 9) : Nat × Nat),
        WorkerProc.mk (4, 9)]).procs
      = WorkerProc.mk ((4, 9) : Nat × Nat) :: [WorkerProc.mk (4, 9)]) ∧
    (save (SRDriver.mk 4 [WorkerProc.mk ((4, 9) : Nat × Nat),
        WorkerProc.mk (4, 9)]) = some (4, 9) ∧
      restore Prod.fst (SRDriver.mk 4 [WorkerProc.mk ((4, 9) : Nat × Nat),
        WorkerProc.mk (4, 9)]) (4, 9)
        = some (SRDriver.mk 4 [WorkerProc.mk ((4, 9) : Nat × Nat),
            WorkerProc.mk (4, 9)])) :=
  ⟨rfl,
   restore_save_roundtrip Prod.fst
     (SRDriver.mk 4 [WorkerProc.mk ((4, 9) : Nat × Nat), WorkerProc.mk (4, 9)])
     (WorkerProc.mk (4, 9)) [WorkerProc.mk (4, 9)] rfl (by decide) rfl⟩

/-! ## SigOpt observation (`SigOptSupervisedTrainable._process_result`) -/

/-- Python `result.get(k, v)`. -/
def getD (r : Dict) (k : String) (v : Value) : Value :=
  (r.lookup k).getD v

/-- Numeric read of `result[k]` used for the `> 0.0` comparison; a missing
or non-numeric entry yields 0 (the source would raise a `KeyError` there,
and the claims only evaluate it when the entry is a present number). -/
def getNumD (r : Dict) (k : String) : ℚ :=
  match r.lookup k with
  | some (Value.num q) => q
  | _ => 0

/-- `SigOptSupervisedTrainable._process_result` with the pre-experiment
argument `None` (so the superclass hook leaves the record unchanged).
`has_sigopt` is `self.sigopt is not None`; `epochs` is `self.epochs`,
`iteration` is `self.iteration`.  The second component records the
`update_observation` calls issued, each carrying its `values` payload of
one `(name, value)` entry per metric name. -/
def sigopt_process_result (has_sigopt : Bool) (metric_names : List String)
    (epochs iteration : ℤ) (result : Dict) :
    Dict × List (List (String × Value)) :=
  if has_sigopt then
    let result := dictSet result "early_stop"
      (getD result "early_stop" (Value.num 0))
    if iteration ≥ epochs - 1 then
      let result := dictSet result "early_stop" (Value.num 1)
      if 0 < getNumD result "mean_accuracy" then
        (result,
         [metric_names.map (fun name => (name, getD result name (Value.num 0)))])
      else (result, [])
    else (result, [])
  else (result, [])

/-- C8: with SigOpt present and a metric list containing `mean_accuracy`,
on a step whose iteration counter is at least `epochs - 1` and whose
aggregated `mean_accuracy` is positive, exactly one observation update is
issued, carrying exactly one `(name, value)` entry per configured metric
name in order, and the returned record carries the terminal
`early_stop = 1.0` mark. -/
theorem sigopt_final_iteration_observation (metric_names : List String)
    (epochs iteration : ℤ) (result : Dict) (acc : ℚ)
    (hmem : "mean_accuracy" ∈ metric_names)
    (hit : iteration ≥ epochs - 1)
    (hacc : result.lookup "mean_accuracy" = some (Value.num acc))
    (hpos : 0 < acc) :
    (sigopt_process_result true metric_names epochs iteration result).2.length
      = 1 ∧
    (∀ vs ∈ (sigopt_process_result true metric_names epochs iteration
        result).2, vs.map Prod.fst = metric_names) ∧
    (sigopt_process_result true metric_names epochs iteration
        result).1.lookup "early_stop" = some (Value.num 1) := by
  have hacc2 : (dictSet (dictSet result "early_stop"
        (getD result "early_stop" (Value.num 0))) "early_stop"
        (Value.num 1)).lookup "mean_accuracy" = some (Value.num acc) := by
    rw [lookup_dictSet_ne _ _ _ _ (by decide),
      lookup_dictSet_ne _ _ _ _ (by decide)]
    exact hacc
  have hnum : getNumD (dictSet (dictSet result "early_stop"
      (getD result "early_stop" (Value.num 0))) "early_stop"
      (Value.num 1)) "mean_accuracy" = acc := by
    rw [getNumD, hacc2]
  unfold sigopt_process_result
  rw [if_pos rfl, if_pos hit, if_pos (by rw [hnum]; exact hpos)]
  refine ⟨rfl, ?_, lookup_dictSet_self _ _ _⟩
  intro vs hvs
  simp only [List.mem_singleton] at hvs
  subst hvs
  simp [Function.comp_def]

/-- C8 witness: two metrics, final iteration, positive accuracy. -/
theorem sigopt_final_iteration_observation_witness :
    ("mean_accuracy" ∈ ["mean_accuracy", "loss"]) ∧
    ((sigopt_process_result true ["mean_accuracy", "loss"] 10 9
        [("mean_accuracy", Value.num (1 / 2)),
         ("loss", Value.num 2)]).2.length = 1 ∧
      (∀ vs ∈ (sigopt_process_result true ["mean_accuracy", "loss"] 10 9
          [("mean_accuracy", Value.num (1 / 2)),
           ("loss", Value.num 2)]).2,
        vs.map Prod.fst = ["mean_accuracy", "loss"]) ∧
      (sigopt_process_result true ["mean_accuracy", "loss"] 10 9
          [("mean_accuracy", Value.num (1 / 2)),
           ("loss", Value.num 2)]).1.lookup "early_stop"
        = some (Value.num 1)) :=
  ⟨by decide,
   sigopt_final_iteration_observation ["mean_accuracy", "loss"] 10 9
     [("mean_accuracy", Value.num (1 / 2)), ("loss", Value.num 2)] (1 / 2)
     (by decide) (by omega) rfl (by norm_num)⟩

/-! ## Per-worker deep copies (the configuration loop of `_create_workers`)

To state the frame effect of `copy.deepcopy(config)` followed by in-place
key assignments we model Python object identity: a heap of dict objects
addressed by naturals, with a bump allocator.  `deepcopy` allocates a fresh
address holding an equal dict; assignment through one address leaves every
other address untouched. -/

/-- A heap of dict objects and the next fresh address. -/
structure Store where
  heap : Nat → Option Dict
  next : Nat

/-- Dereference an address (unallocated addresses read as the empty dict;
the claims only read allocated ones). -/
def Store.read (s : Store) (a : Nat) : Dict :=
  (s.heap a).getD []

/-- Allocate a fresh object holding `d`. -/
def Store.alloc (s : Store) (d : Dict) : Nat × Store :=
  (s.next,
   { heap := fun b => if b = s.next then some d else s.heap b,
     next := s.next + 1 })

/-- `copy.deepcopy`: a fresh object with equal contents. -/
def deepcopy (s : Store) (a : Nat) : Nat × Store :=
  s.alloc (s.read a)

/-- In-place `d[k] = v` on the object at address `a`. -/
def Store.setItem (s : Store) (a : Nat) (k : String) (v : Value) : Store :=
  { s with
    heap := fun b => if b = a then some (dictSet (s.read a) k v)
                     else s.heap b }

/-- One pass of the loop body `worker_config = copy.deepcopy(config);
worker_config["distributed"] = True; ...; worker_config["rank"] = rank`. -/
def configure_one (s : Store) (config_addr : Nat) (dist_url : String)
    (world_size rank : Nat) : Nat × Store :=
  let p := deepcopy s config_addr
  let s2 := p.2.setItem p.1 "distributed" (Value.bool true)
  let s3 := s2.setItem p.1 "dist_url" (Value.str dist_url)
  let s4 := s3.setItem p.1 "world_size" (Value.nat world_size)
  let s5 := s4.setItem p.1 "rank" (Value.nat rank)
  (p.1, s5)

/-- `for rank, w in enumerate(self.procs)` over the given rank list,
collecting the address of each per-worker configuration copy. -/
def configure_ranks (config_addr : Nat) (dist_url : String)
    (world_size : Nat) : Store → List Nat → List Nat × Store
  | s, [] => ([], s)
  | s, r :: rest =>
    let p := configure_one s config_addr dist_url world_size r
    let q := configure_ranks config_addr dist_url world_size p.2 rest
    (p.1 :: q.1, q.2)

/-- The whole configuration loop of `_create_workers`: ranks
`0, ..., world_size - 1`. -/
def configure_workers (s : Store) (config_addr : Nat) (dist_url : String)
    (world_size : Nat) : List Nat × Store :=
  configure_ranks config_addr dist_url world_size s (List.range world_size)

theorem configure_one_spec (s : Store) (ca : Nat) (url : String)
    (ws r : Nat) :
    (configure_one s ca url ws r).1 = s.next ∧
    (configure_one s ca url ws r).2.next = s.next + 1 ∧
    (∀ a, a ≠ s.next → (configure_one s ca url ws r).2.heap a = s.heap a) ∧
    (configure_one s ca url ws r).2.read s.next
      = worker_config (s.read ca) url ws r := by
  refine ⟨rfl, rfl, ?_, ?_⟩
  · intro a ha
    simp [configure_one, deepcopy, Store.alloc, Store.setItem, Store.read, ha]
  · simp [configure_one, deepcopy, Store.alloc, Store.setItem, Store.read,
      worker_config]

theorem configure_ranks_spec (ca : Nat) (url : String) (ws : Nat) :
    ∀ (rs : List Nat) (s : Store),
      (∀ a, s.next ≤ a → s.heap a = none) → ca < s.next →
      (configure_ranks ca url ws s rs).2.next = s.next + rs.length ∧
      (∀ a, a < s.next →
        (configure_ranks ca url ws s rs).2.heap a = s.heap a) ∧
      (∀ a, s.next + rs.length ≤ a →
        (configure_ranks ca url ws s rs).2.heap a = none) ∧
      (configure_ranks ca url ws s rs).1 = List.range' s.next rs.length ∧
      (∀ i (h : i < rs.length),
        (configure_ranks ca url ws s rs).2.read (s.next + i)
          = worker_config (s.read ca) url ws (rs.get ⟨i, h⟩)) := by
  intro rs
  induction rs with
  | nil =>
    intro s hwf hca
    refine ⟨by simp [configure_ranks], fun a _ => rfl,
      by simpa using hwf, by simp [configure_ranks],
      fun i h => absurd h (by simp)⟩
  | cons r rest ih =>
    intro s hwf hca
    obtain ⟨hw1, hw2, hw3, hw4⟩ := configure_one_spec s ca url ws r
    have hwf1 : ∀ a, (configure_one s ca url ws r).2.next ≤ a →
        (configure_one s ca url ws r).2.heap a = none := by
      intro a ha
      rw [hw2] at ha
      rw [hw3 a (by omega)]
      exact hwf a (by omega)
    have hca1 : ca < (configure_one s ca url ws r).2.next := by
      rw [hw2]; omega
    obtain ⟨ih1, ih2, ih3, ih4, ih5⟩ :=
      ih (configure_one s ca url ws r).2 hwf1 hca1
    have hread_ca : (configure_one s ca url ws r).2.read ca = s.read ca := by
      unfold Store.read
      rw [hw3 ca (by omega)]
    refine ⟨?_, ?_, ?_, ?_, ?_⟩
    · show (configure_ranks ca url ws (configure_one s ca url ws r).2
        rest).2.next = s.next + (r :: rest).length
      rw [ih1, hw2]
      simp
      omega
    · intro a ha
      show (configure_ranks ca url ws (configure_one s ca url ws r).2
        rest).2.heap a = s.heap a
      rw [ih2 a (by omega), hw3 a (by omega)]
    · intro a ha
      show (configure_ranks ca url ws (configure_one s ca url ws r).2
        rest).2.heap a = none
      apply ih3
      rw [hw2]
      simp at ha
      omega
    · show (configure_one s ca url ws r).1 ::
        (configure_ranks ca url ws (configure_one s ca url ws r).2 rest).1
        = List.range' s.next (r :: rest).length
      rw [hw1, ih4, hw2]
      rfl
    · intro i h
      match i with
      | 0 =>
        show (configure_ranks ca url ws (configure_one s ca url ws r).2
          rest).2.read (s.next + 0) = worker_config (s.read ca) url ws r
        unfold Store.read
        rw [ih2 (s.next + 0) (by omega)]
        have := hw4
        unfold Store.read at this
        simpa using this
      | i + 1 =>
        have hi : i < rest.length := by simpa using h
        show (configure_ranks ca url ws (configure_one s ca url ws r).2
          rest).2.read (s.next + (i + 1))
          = worker_config (s.read ca) url ws (rest.get ⟨i, hi⟩)
        have hidx : s.next + (i + 1) = (configure_one s ca url ws r).2.next + i := by
          rw [hw2]; omega
        rw [hidx, ← hread_ca]
        exact ih5 i hi

/-- C9: running the configuration loop on a well-formed heap leaves the
shared original configuration object unchanged, hands every worker a fresh
address distinct from the original and from every other worker, and fills
worker `i`'s copy with exactly the original entries plus the four injected
per-worker fields with `rank = i` — so no field injected for one worker is
visible in the original or in another worker's copy. -/
theorem configure_workers_frame (s : Store) (ca : Nat) (url : String)
    (ws : Nat) (hwf : ∀ a, s.next ≤ a → s.heap a = none)
    (hca : ca < s.next) :
    (configure_workers s ca url ws).2.read ca = s.read ca ∧
    (configure_workers s ca url ws).1 = List.range' s.next ws ∧
    (∀ wa ∈ (configure_workers s ca url ws).1, ca < wa) ∧
    ((configure_workers s ca url ws).1).Nodup ∧
    (∀ i (h : i < ws),
      (configure_workers s ca url ws).2.read (s.next + i)
        = worker_config (s.read ca) url ws i) ∧
    (∀ i (h : i < ws),
      ((configure_workers s ca url ws).2.read (s.next + i)).lookup "rank"
        = some (Value.nat i)) := by
  obtain ⟨h1, h2, h3, h4, h5⟩ :=
    configure_ranks_spec ca url ws (List.range ws) s hwf hca
  have hlen : (List.range ws).length = ws := List.length_range ws
  refine ⟨?_, ?_, ?_, ?_, ?_, ?_⟩
  · show (configure_ranks ca url ws s (List.range ws)).2.read ca = s.read ca
    unfold Store.read
    rw [h2 ca hca]
  · rw [show (configure_workers s ca url ws).1
      = (configure_ranks ca url ws s (List.range ws)).1 from rfl, h4, hlen]
  · intro wa hwa
    rw [show (configure_workers s ca url ws).1
      = (configure_ranks ca url ws s (List.range ws)).1 from rfl, h4] at hwa
    have := List.mem_range'_1.mp (by simpa using hwa)
    omega
  · rw [show (configure_workers s ca url ws).1
      = (configure_ranks ca url ws s (List.range ws)).1 from rfl, h4]
    apply List.nodup_range'
    exact Nat.one_pos
  · intro i h
    have hget : (List.range ws).get ⟨i, by omega⟩ = i := by simp
    have := h5 i (by omega)
    rw [hget] at this
    exact this
  · intro i h
    have hget : (List.range ws).get ⟨i, by omega⟩ = i := by simp
    have := h5 i (by omega)
    rw [hget] at this
    rw [show (configure_workers s ca url ws).2
      = (configure_ranks ca url ws s (List.range ws)).2 from rfl, this]
    exact lookup_dictSet_self _ _ _

/-- C9 witness: a one-object heap holding the shared configuration and a
two-worker pool. -/
theorem configure_workers_frame_witness :
    ((0 : Nat) < 1) ∧
    ((configure_workers (Store.mk
        (fun a => if a = 0 then some [("lr", Value.num 1)] else none) 1)
        0 "tcp://h:1" 2).2.read 0
      = (Store.mk (fun a => if a = 0 then some [("lr", Value.num 1)] else none)
          1).read 0 ∧
      (configure_workers (Store.mk
        (fun a => if a = 0 then some [("lr", Value.num 1)] else none) 1)
        0 "tcp://h:1" 2).1 = List.range' 1 2 ∧
      (∀ wa ∈ (configure_workers (Store.mk
        (fun a => if a = 0 then some [("lr", Value.num 1)] else none) 1)
        0 "tcp://h:1" 2).1, 0 < wa) ∧
      ((configure_workers (Store.mk
        (fun a => if a = 0 then some [("lr", Value.num 1)] else none) 1)
        0 "tcp://h:1" 2).1).Nodup ∧
      (∀ i (h : i < 2),
        (configure_workers (Store.mk
          (fun a => if a = 0 then some [("lr", Value.num 1)] else none) 1)
          0 "tcp://h:1" 2).2.read (1 + i)
          = worker_config ((Store.mk
              (fun a => if a = 0 then some [("lr", Value.num 1)] else none)
              1).read 0) "tcp://h:1" 2 i) ∧
      (∀ i (h : i < 2),
        ((configure_workers (Store.mk
          (fun a => if a = 0 then some [("lr", Value.num 1)] else none) 1)
          0 "tcp://h:1" 2).2.read (1 + i)).lookup "rank"
          = some (Value.nat i))) :=
  ⟨by omega,
   configure_workers_frame
     (Store.mk (fun a => if a = 0 then some [("lr", Value.num 1)] else none) 1)
     0 "tcp://h:1" 2
     (fun a ha => by
       have h1a : 1 ≤ a := ha
       simp [show a ≠ 0 from by omega])
     Nat.one_pos⟩

end Trainables
